import Mathlib

/-!
Verification of the dimensional-analysis core and the plugin loader of this
repository, shallowly embedded in Lean 4.

The dimensional-analysis source defines, with C++ templates:
* `std::ratio<N, D>`-valued exponents (`Exponent<N> = std::ratio<N, 1>`),
* a `Unit` type tag holding four exponent ratios (length, mass, time, current),
* a `Quantity<UnitType, ValueType>` carrier with member operators `+ - * /`.

Here a `std::ratio` template instance is embedded as a pair of integers
(`RatExp`), `std::ratio`'s normalization (lowest terms, positive denominator,
performed by `std::ratio_add::type` / `std::ratio_subtract::type`) as
`ratioNormalize`, the `Unit` tag as a four-field structure of `RatExp`, and
`Quantity` both as a unit-indexed structure and as a dynamic record
(`DynQuantity`) whose partial operations model C++ overload resolution:
`none` stands for a compile-time rejection of the expression.
-/

namespace UnitSystem

/-- A `std::ratio<num, den>` template instance: a compile-time rational,
identified by its numerator and denominator. -/
structure RatExp where
  num : Int
  den : Int
deriving DecidableEq

/-- The normalization `std::ratio<N, D>` applies to produce its `num`/`den`
members (and that `std::ratio_add<..>::type` / `std::ratio_subtract<..>::type`
apply to their result): divide by `gcd(N, D)` and move the sign of `D` to the
numerator.  `D = 0` is ill-formed in C++ (`static_assert`); the theorems below
assume a nonzero denominator. -/
def ratioNormalize (n d : Int) : RatExp :=
  if 0 ≤ d then ⟨n / Int.gcd n d, d / Int.gcd n d⟩
  else ⟨(-n) / Int.gcd (-n) (-d), (-d) / Int.gcd (-n) (-d)⟩

/-- Canonical form of a rational exponent: positive denominator, lowest terms. -/
def IsNormalized (r : RatExp) : Prop :=
  0 < r.den ∧ Int.gcd r.num r.den = 1

instance (r : RatExp) : Decidable (IsNormalized r) := by
  unfold IsNormalized; infer_instance

/-- Source shorthand `Exponent<N> = std::ratio<N, 1>` (source lines 13-14). -/
def Exponent (n : Int) : RatExp := ⟨n, 1⟩

/-- Embeds `std::ratio_add<A, B>::type`: the exact sum `A + B`, normalized. -/
def ratio_add (a b : RatExp) : RatExp :=
  ratioNormalize (a.num * b.den + b.num * a.den) (a.den * b.den)

/-- Embeds `std::ratio_subtract<A, B>::type`: the exact difference `A − B`, normalized. -/
def ratio_subtract (a b : RatExp) : RatExp :=
  ratioNormalize (a.num * b.den - b.num * a.den) (a.den * b.den)

/-- The rational number a `RatExp` denotes. -/
def RatExp.val (r : RatExp) : ℚ := (r.num : ℚ) / (r.den : ℚ)

/-- The `Unit` type tag (source lines 20-32): one rational exponent per base
dimension, in the fixed order length, mass, time, current.  The fields carry
the names of the template parameters of the C++ `Unit`. -/
structure Unit where
  LengthExp : RatExp
  MassExp : RatExp
  TimeExp : RatExp
  CurrentExp : RatExp
deriving DecidableEq

/-- All four exponents of a unit are in canonical form. -/
def IsNormalizedUnit (u : Unit) : Prop :=
  IsNormalized u.LengthExp ∧ IsNormalized u.MassExp ∧
    IsNormalized u.TimeExp ∧ IsNormalized u.CurrentExp

instance (u : Unit) : Decidable (IsNormalizedUnit u) := by
  unfold IsNormalizedUnit; infer_instance

/-- All four denominators of a unit are nonzero (C++ `std::ratio` rejects a
zero denominator at compile time). -/
def UnitDenNonzero (u : Unit) : Prop :=
  u.LengthExp.den ≠ 0 ∧ u.MassExp.den ≠ 0 ∧ u.TimeExp.den ≠ 0 ∧ u.CurrentExp.den ≠ 0

instance (u : Unit) : Decidable (UnitDenNonzero u) := by
  unfold UnitDenNonzero; infer_instance

/-- Alias `Meter = Unit<Exponent<1>>` (omitted parameters default to `Exponent<0>`). -/
def Meter : Unit := ⟨Exponent 1, Exponent 0, Exponent 0, Exponent 0⟩

/-- Alias `Kilogram = Unit<Exponent<0>, Exponent<1>>`. -/
def Kilogram : Unit := ⟨Exponent 0, Exponent 1, Exponent 0, Exponent 0⟩

/-- Alias `Second = Unit<Exponent<0>, Exponent<0>, Exponent<1>>`. -/
def Second : Unit := ⟨Exponent 0, Exponent 0, Exponent 1, Exponent 0⟩

/-- Alias `Ampere = Unit<Exponent<0>, Exponent<0>, Exponent<0>, Exponent<1>>`. -/
def Ampere : Unit := ⟨Exponent 0, Exponent 0, Exponent 0, Exponent 1⟩

/-- Alias `Velocity = Unit<Exponent<1>, Exponent<0>, Exponent<-1>>`. -/
def Velocity : Unit := ⟨Exponent 1, Exponent 0, Exponent (-1), Exponent 0⟩

/-- Alias `Acceleration = Unit<Exponent<1>, Exponent<0>, Exponent<-2>>`. -/
def Acceleration : Unit := ⟨Exponent 1, Exponent 0, Exponent (-2), Exponent 0⟩

/-- Alias `Area = Unit<Exponent<2>>`. -/
def Area : Unit := ⟨Exponent 2, Exponent 0, Exponent 0, Exponent 0⟩

/-- Alias `Force = Unit<Exponent<1>, Exponent<1>, Exponent<-2>>`. -/
def Force : Unit := ⟨Exponent 1, Exponent 1, Exponent (-2), Exponent 0⟩

/-- Alias `Dimensionless = Unit<>`. -/
def Dimensionless : Unit := ⟨Exponent 0, Exponent 0, Exponent 0, Exponent 0⟩

/-- The `ResultUnit` computed inside `operator*` (source lines 78-83):
per-axis `std::ratio_add`. -/
def unitMul (A B : Unit) : Unit :=
  ⟨ratio_add A.LengthExp B.LengthExp, ratio_add A.MassExp B.MassExp,
   ratio_add A.TimeExp B.TimeExp, ratio_add A.CurrentExp B.CurrentExp⟩

/-- The `ResultUnit` computed inside `operator/` (source lines 93-98):
per-axis `std::ratio_subtract`. -/
def unitDiv (A B : Unit) : Unit :=
  ⟨ratio_subtract A.LengthExp B.LengthExp, ratio_subtract A.MassExp B.MassExp,
   ratio_subtract A.TimeExp B.TimeExp, ratio_subtract A.CurrentExp B.CurrentExp⟩

/-- Carrier `Quantity<UnitType, ValueType>` (source lines 51-101): a scalar `value`
tagged with a unit at the type level.  The constructor is `explicit
Quantity(ValueType val) : value(val)`, mirrored by the anonymous constructor. -/
structure Quantity (U : Unit) (S : Type) where
  value : S

/-- Member `operator+` (source lines 63-65): both operands and the result share the
one type `Quantity<UnitType, ValueType>`. -/
def Quantity.add {U : Unit} {S : Type} [Add S] (a b : Quantity U S) : Quantity U S :=
  ⟨a.value + b.value⟩

/-- Member `operator-` (source lines 68-70). -/
def Quantity.sub {U : Unit} {S : Type} [Sub S] (a b : Quantity U S) : Quantity U S :=
  ⟨a.value - b.value⟩

/-- Member `operator*` (source lines 75-85): any unit on the right, same `ValueType`;
the result unit is the per-axis `std::ratio_add`. -/
def Quantity.mul {U V : Unit} {S : Type} [Mul S] (a : Quantity U S) (b : Quantity V S) :
    Quantity (unitMul U V) S :=
  ⟨a.value * b.value⟩

/-- Member `operator/` (source lines 90-100): any unit on the right, same `ValueType`;
the result unit is the per-axis `std::ratio_subtract`; the scalar quotient is
taken with the scalar type's own division, with no zero check. -/
def Quantity.div {U V : Unit} {S : Type} [Div S] (a : Quantity U S) (b : Quantity V S) :
    Quantity (unitDiv U V) S :=
  ⟨a.value / b.value⟩

/-- A quantity with its unit tag made term-level, to talk about all quantity
types at once.  A call site `a + b` in C++ is well-formed exactly when the
operand types coincide; the partial operations below return `none` exactly
when C++ overload resolution fails, i.e. when the expression is rejected at
compile time. -/
structure DynQuantity (S : Type) where
  unit : Unit
  value : S
deriving DecidableEq

/-- Member `operator+` seen from an arbitrary call site: defined only when both
operands have the same unit type; then it adds the scalars and keeps the unit. -/
def DynQuantity.add {S : Type} [Add S] (a b : DynQuantity S) : Option (DynQuantity S) :=
  if a.unit = b.unit then some ⟨a.unit, a.value + b.value⟩ else none

/-- Member `operator-` seen from an arbitrary call site. -/
def DynQuantity.sub {S : Type} [Sub S] (a b : DynQuantity S) : Option (DynQuantity S) :=
  if a.unit = b.unit then some ⟨a.unit, a.value - b.value⟩ else none

/-- Member `operator*` seen from an arbitrary call site: total, never rejects on
units. -/
def DynQuantity.mul {S : Type} [Mul S] (a b : DynQuantity S) : DynQuantity S :=
  ⟨unitMul a.unit b.unit, a.value * b.value⟩

/-- Member `operator/` seen from an arbitrary call site: total, never rejects on
units; the scalar division is the scalar type's own. -/
def DynQuantity.div {S : Type} [Div S] (a b : DynQuantity S) : DynQuantity S :=
  ⟨unitDiv a.unit b.unit, a.value / b.value⟩

/-- The operator surface named by the specification for quantities.  The
constructors name the expressions `a + b`, `a - b`, `a * b`, `a / b`,
`a == b`, `a < b`, `-a`, `scalar * a`, `a * scalar`, `a / scalar`. -/
inductive SurfaceOp
  | addQuantity
  | subQuantity
  | mulQuantity
  | divQuantity
  | eqQuantity
  | ltQuantity
  | negQuantity
  | mulScalarLeft
  | mulScalarRight
  | divScalarRight
deriving DecidableEq

/-- The operators the `Quantity` struct actually declares (source lines
58-100): member `operator+`, `operator-`, `operator*`, `operator/`, all taking
a `Quantity` right-hand side, and nothing else — no comparison operators, no
unary minus, no overload taking a raw scalar, and no free operators elsewhere
in the translation unit. -/
def providedOps : List SurfaceOp :=
  [.addQuantity, .subQuantity, .mulQuantity, .divQuantity]

/-- The C++ scalar types a `Quantity` is instantiated at; `double` is the
default template argument. -/
inductive ScalarTy
  | float
  | double
  | longDouble
deriving DecidableEq

/-- A quantity with both its unit tag and its `ValueType` made term-level, to
talk about mixed-precision call sites.  The numeric content is modelled
uniformly (the claims about `ScalarTy` concern only which expressions are
accepted and which `ValueType` the result carries). -/
structure MixedQuantity where
  sty : ScalarTy
  unit : Unit
  value : ℚ
deriving DecidableEq

/-- Member `operator+` at a possibly mixed-precision call site: the parameter type
`const Quantity<UnitType, ValueType>&` fixes both the unit and the scalar type
of the right operand to those of the left, so the call is rejected unless both
match. -/
def MixedQuantity.addM (a b : MixedQuantity) : Option MixedQuantity :=
  if a.sty = b.sty ∧ a.unit = b.unit then some ⟨a.sty, a.unit, a.value + b.value⟩ else none

/-- Member `operator-` at a possibly mixed-precision call site (source lines
68-70): exactly like `operator+`, the parameter type fixes both the unit and
the scalar type of the right operand to those of the left. -/
def MixedQuantity.subM (a b : MixedQuantity) : Option MixedQuantity :=
  if a.sty = b.sty ∧ a.unit = b.unit then some ⟨a.sty, a.unit, a.value - b.value⟩ else none

/-- Member `operator*` at a possibly mixed-precision call site: the unit of the right
operand is free (`OtherUnitType`), but its `ValueType` is fixed to the left
operand's, so mixed scalar types are rejected. -/
def MixedQuantity.mulM (a b : MixedQuantity) : Option MixedQuantity :=
  if a.sty = b.sty then some ⟨a.sty, unitMul a.unit b.unit, a.value * b.value⟩ else none

/-- Member `operator/` at a possibly mixed-precision call site. -/
def MixedQuantity.divM (a b : MixedQuantity) : Option MixedQuantity :=
  if a.sty = b.sty then some ⟨a.sty, unitDiv a.unit b.unit, a.value / b.value⟩ else none

end UnitSystem

namespace PluginLoader

/-- The observable actions of the loader `main` on the shared artifact:
`acquire` is the successful `dlopen` / `LoadLibraryA`, `release` is the
`dlclose` / `FreeLibrary` call, `callName` and `callAdd` are the two plugin
invocations. -/
inductive LoaderEvent
  | acquire
  | release
  | callName
  | callAdd
deriving DecidableEq

/-- The environment the loader runs against: whether the library loads,
whether each of the two symbols resolves, and whether the final close call
reports success (its failure only prints a warning). -/
structure LoaderEnv where
  openOk : Bool
  hasGetPluginName : Bool
  hasPerformAddition : Bool
  closeOk : Bool
deriving DecidableEq

/-- The loader `main` (source `cpp_guide_a9aafb.cpp`, lines 36-142), as the
trace of artifact events it performs plus its exit code.  If `dlopen` fails it
returns 1 having acquired nothing; if either `dlsym` lookup fails it calls
`dlclose` and returns 1; otherwise it invokes both plugin functions, calls
`dlclose` (a failing close only prints a warning) and returns 0. -/
def loaderMain (env : LoaderEnv) : List LoaderEvent × Int :=
  if !env.openOk then ([], 1)
  else if !env.hasGetPluginName then ([.acquire, .release], 1)
  else if !env.hasPerformAddition then ([.acquire, .release], 1)
  else ([.acquire, .callName, .callAdd, .release], 0)

end PluginLoader

namespace UnitSystem

theorem isNormalized_divGcd (n d : Int) (hd : 0 < d) :
    IsNormalized ⟨n / Int.gcd n d, d / Int.gcd n d⟩ := by
  have hg : 0 < Int.gcd n d := Int.gcd_pos_iff.mpr (Or.inr hd.ne')
  refine ⟨?_, Int.gcd_div_gcd_div_gcd hg⟩
  show 0 < d / (Int.gcd n d : Int)
  set g : Int := (Int.gcd n d : Int) with hgdef
  have hgz : g ≠ 0 := by rw [hgdef]; exact_mod_cast hg.ne'
  obtain ⟨c, hc⟩ : g ∣ d := by rw [hgdef]; exact Int.gcd_dvd_right
  have hcpos : 0 < c := by
    have h1 : 0 < g * c := hc ▸ hd
    rcases mul_pos_iff.mp h1 with ⟨_, h⟩ | ⟨h, _⟩
    · exact h
    · exact absurd h (by rw [hgdef]; exact (Int.natCast_nonneg _).not_lt)
  rw [hc, Int.mul_ediv_cancel_left c hgz]
  exact hcpos

theorem ratioNormalize_isNormalized (n d : Int) (hd : d ≠ 0) :
    IsNormalized (ratioNormalize n d) := by
  unfold ratioNormalize
  by_cases h : 0 ≤ d
  · rw [if_pos h]
    exact isNormalized_divGcd n d (lt_of_le_of_ne h (Ne.symm hd))
  · rw [if_neg h]
    exact isNormalized_divGcd (-n) (-d) (by omega)

theorem val_divGcd (m e : Int) (he : 0 < e) :
    RatExp.val ⟨m / Int.gcd m e, e / Int.gcd m e⟩ = (m : ℚ) / (e : ℚ) := by
  have hg : 0 < Int.gcd m e := Int.gcd_pos_iff.mpr (Or.inr he.ne')
  set g : Int := (Int.gcd m e : Int) with hgdef
  have hgz : g ≠ 0 := by rw [hgdef]; exact_mod_cast hg.ne'
  obtain ⟨a, ha⟩ : g ∣ m := by rw [hgdef]; exact Int.gcd_dvd_left
  obtain ⟨c, hc⟩ : g ∣ e := by rw [hgdef]; exact Int.gcd_dvd_right
  have hgq : (g : ℚ) ≠ 0 := by exact_mod_cast hgz
  rw [ha, hc, Int.mul_ediv_cancel_left a hgz, Int.mul_ediv_cancel_left c hgz, RatExp.val]
  push_cast
  rw [mul_div_mul_left _ _ hgq]

theorem ratioNormalize_val (n d : Int) (hd : d ≠ 0) :
    (ratioNormalize n d).val = (n : ℚ) / (d : ℚ) := by
  unfold ratioNormalize
  by_cases h : 0 ≤ d
  · rw [if_pos h]
    exact val_divGcd n d (lt_of_le_of_ne h (Ne.symm hd))
  · rw [if_neg h]
    rw [val_divGcd (-n) (-d) (by omega)]
    push_cast
    rw [neg_div_neg_eq]

theorem ratio_add_comm (a b : RatExp) : ratio_add a b = ratio_add b a := by
  unfold ratio_add
  rw [show a.num * b.den + b.num * a.den = b.num * a.den + a.num * b.den from by ring,
      show a.den * b.den = b.den * a.den from by ring]

theorem ratio_add_val (a b : RatExp) (ha : a.den ≠ 0) (hb : b.den ≠ 0) :
    (ratio_add a b).val = a.val + b.val := by
  unfold ratio_add
  rw [ratioNormalize_val _ _ (mul_ne_zero ha hb), RatExp.val, RatExp.val]
  have haq : (a.den : ℚ) ≠ 0 := by exact_mod_cast ha
  have hbq : (b.den : ℚ) ≠ 0 := by exact_mod_cast hb
  push_cast
  field_simp

theorem ratio_subtract_val (a b : RatExp) (ha : a.den ≠ 0) (hb : b.den ≠ 0) :
    (ratio_subtract a b).val = a.val - b.val := by
  unfold ratio_subtract
  rw [ratioNormalize_val _ _ (mul_ne_zero ha hb), RatExp.val, RatExp.val]
  have haq : (a.den : ℚ) ≠ 0 := by exact_mod_cast ha
  have hbq : (b.den : ℚ) ≠ 0 := by exact_mod_cast hb
  push_cast
  field_simp
  ring

theorem normalized_eq_iff (a b : RatExp) (ha : IsNormalized a) (hb : IsNormalized b) :
    a = b ↔ a.val = b.val := by
  constructor
  · intro h; rw [h]
  · intro h
    obtain ⟨had, hag⟩ := ha
    obtain ⟨hbd, hbg⟩ := hb
    have haq : ((a.den : ℚ)) ≠ 0 := by exact_mod_cast had.ne'
    have hbq : ((b.den : ℚ)) ≠ 0 := by exact_mod_cast hbd.ne'
    rw [RatExp.val, RatExp.val, div_eq_div_iff haq hbq] at h
    have hcross : a.num * b.den = b.num * a.den := by exact_mod_cast h
    have h1 : a.den ∣ b.den := by
      have hd1 : a.den ∣ a.num * b.den := by
        rw [hcross]; exact dvd_mul_left a.den b.num
      exact Int.dvd_of_dvd_mul_right_of_gcd_one hd1 (by rw [Int.gcd_comm]; exact hag)
    have h2 : b.den ∣ a.den := by
      have hd2 : b.den ∣ b.num * a.den := by
        rw [← hcross]; exact dvd_mul_left b.den a.num
      exact Int.dvd_of_dvd_mul_right_of_gcd_one hd2 (by rw [Int.gcd_comm]; exact hbg)
    have hden : a.den = b.den := Int.dvd_antisymm had.le hbd.le h1 h2
    have hnum : a.num = b.num := by
      apply mul_right_cancel₀ (show a.den ≠ 0 from had.ne')
      conv_lhs => rw [hden]
      exact hcross
    cases a; cases b
    rw [RatExp.mk.injEq]
    exact ⟨hnum, hden⟩

/-- C1.  Addition of two quantities is accepted exactly when their dimension
vectors are equal; in that case the result keeps the operands' dimension
vector and its scalar is the sum of the operands' scalars; adding length 10.0
to length 5.0 yields a length of exactly 15.0; for unequal dimension vectors
the expression is rejected at compile time (`none`). -/
theorem add_accepted_iff_units_equal :
    (∀ (S : Type) [Add S] (a b : DynQuantity S),
        (DynQuantity.add a b).isSome ↔ a.unit = b.unit)
    ∧ (∀ (S : Type) [Add S] (a b : DynQuantity S), a.unit = b.unit →
        DynQuantity.add a b = some ⟨a.unit, a.value + b.value⟩)
    ∧ DynQuantity.add ⟨Meter, (10 : ℚ)⟩ ⟨Meter, 5⟩ = some ⟨Meter, 15⟩ := by
  refine ⟨?_, ?_, ?_⟩
  · intro S _ a b
    by_cases h : a.unit = b.unit
    · simp [DynQuantity.add, h]
    · simp [DynQuantity.add, h]
  · intro S _ a b h
    simp [DynQuantity.add, h]
  · simp only [DynQuantity.add, if_pos rfl, Option.some.injEq, DynQuantity.mk.injEq]
    norm_num

/-- Witness for C1 at length 10.0 plus length 5.0. -/
theorem add_accepted_iff_units_equal_witness :
    DynQuantity.add ⟨Meter, (10 : ℚ)⟩ ⟨Meter, 5⟩ = some ⟨Meter, 10 + 5⟩ :=
  add_accepted_iff_units_equal.2.1 ℚ ⟨Meter, (10 : ℚ)⟩ ⟨Meter, 5⟩ rfl

/-- C2.  Multiplication never fails on dimensions: for every pair of
quantities the result's dimension vector is the per-axis sum of the operands'
exponents (as rational numbers) and the result scalar is the product of the
scalars; length 10.0 times length 5.0 is an area of exactly 50.0. -/
theorem mul_total_exponents_add :
    (∀ (S : Type) [Mul S] (a b : DynQuantity S),
        DynQuantity.mul a b = ⟨unitMul a.unit b.unit, a.value * b.value⟩)
    ∧ (∀ u v : Unit, UnitDenNonzero u → UnitDenNonzero v →
        ((unitMul u v).LengthExp.val = u.LengthExp.val + v.LengthExp.val ∧
         (unitMul u v).MassExp.val = u.MassExp.val + v.MassExp.val ∧
         (unitMul u v).TimeExp.val = u.TimeExp.val + v.TimeExp.val ∧
         (unitMul u v).CurrentExp.val = u.CurrentExp.val + v.CurrentExp.val))
    ∧ DynQuantity.mul ⟨Meter, (10 : ℚ)⟩ ⟨Meter, 5⟩ = ⟨Area, 50⟩ := by
  refine ⟨fun S _ a b => rfl, ?_, ?_⟩
  · intro u v hu hv
    obtain ⟨hu1, hu2, hu3, hu4⟩ := hu
    obtain ⟨hv1, hv2, hv3, hv4⟩ := hv
    exact ⟨ratio_add_val _ _ hu1 hv1, ratio_add_val _ _ hu2 hv2,
           ratio_add_val _ _ hu3 hv3, ratio_add_val _ _ hu4 hv4⟩
  · simp only [DynQuantity.mul, DynQuantity.mk.injEq]
    exact ⟨by decide, by norm_num⟩

/-- Witness for C2: the exponent arithmetic at `Meter * Second`. -/
theorem mul_total_exponents_add_witness :
    (unitMul Meter Second).TimeExp.val = Meter.TimeExp.val + Second.TimeExp.val :=
  (mul_total_exponents_add.2.1 Meter Second (by decide) (by decide)).2.2.1

/-- C3.  Division never fails on dimensions: for every pair of quantities the
result's dimension vector is the per-axis difference of the operands'
exponents (as rational numbers) and the result scalar is the quotient of the
scalars, taken with the scalar type's own division and no zero check; length
10.0 over time 2.0 is a velocity of exactly 5.0. -/
theorem div_total_exponents_subtract :
    (∀ (S : Type) [Div S] (a b : DynQuantity S),
        DynQuantity.div a b = ⟨unitDiv a.unit b.unit, a.value / b.value⟩)
    ∧ (∀ u v : Unit, UnitDenNonzero u → UnitDenNonzero v →
        ((unitDiv u v).LengthExp.val = u.LengthExp.val - v.LengthExp.val ∧
         (unitDiv u v).MassExp.val = u.MassExp.val - v.MassExp.val ∧
         (unitDiv u v).TimeExp.val = u.TimeExp.val - v.TimeExp.val ∧
         (unitDiv u v).CurrentExp.val = u.CurrentExp.val - v.CurrentExp.val))
    ∧ DynQuantity.div ⟨Meter, (10 : ℚ)⟩ ⟨Second, 2⟩ = ⟨Velocity, 5⟩ := by
  refine ⟨fun S _ a b => rfl, ?_, ?_⟩
  · intro u v hu hv
    obtain ⟨hu1, hu2, hu3, hu4⟩ := hu
    obtain ⟨hv1, hv2, hv3, hv4⟩ := hv
    exact ⟨ratio_subtract_val _ _ hu1 hv1, ratio_subtract_val _ _ hu2 hv2,
           ratio_subtract_val _ _ hu3 hv3, ratio_subtract_val _ _ hu4 hv4⟩
  · simp only [DynQuantity.div, DynQuantity.mk.injEq]
    exact ⟨by decide, by norm_num⟩

/-- Witness for C3: the exponent arithmetic at `Meter / Second`. -/
theorem div_total_exponents_subtract_witness :
    (unitDiv Meter Second).TimeExp.val = Meter.TimeExp.val - Second.TimeExp.val :=
  (div_total_exponents_subtract.2.1 Meter Second (by decide) (by decide)).2.2.1

end UnitSystem

namespace UnitSystem

/-- C4.  Canonical-form invariant: every rational exponent producible by the
algebra — an `Exponent<N>` literal, or any output of `std::ratio_add` /
`std::ratio_subtract`, hence every axis of every unit produced by `operator*`
or `operator/` — is in lowest terms with positive denominator; and on
canonical exponents structural (type-level) equality coincides with equality
of the denoted rational numbers. -/
theorem producible_vectors_canonical :
    (∀ n : Int, IsNormalized (Exponent n))
    ∧ (∀ a b : RatExp, a.den ≠ 0 → b.den ≠ 0 →
        IsNormalized (ratio_add a b) ∧ IsNormalized (ratio_subtract a b))
    ∧ (∀ u v : Unit, UnitDenNonzero u → UnitDenNonzero v →
        IsNormalizedUnit (unitMul u v) ∧ IsNormalizedUnit (unitDiv u v))
    ∧ (∀ a b : RatExp, IsNormalized a → IsNormalized b → (a = b ↔ a.val = b.val)) := by
  have hexp : ∀ n : Int, IsNormalized (Exponent n) :=
    fun n => ⟨one_pos, by simp [Int.gcd, Exponent]⟩
  have hadd : ∀ a b : RatExp, a.den ≠ 0 → b.den ≠ 0 →
      IsNormalized (ratio_add a b) ∧ IsNormalized (ratio_subtract a b) := by
    intro a b ha hb
    exact ⟨ratioNormalize_isNormalized _ _ (mul_ne_zero ha hb),
           ratioNormalize_isNormalized _ _ (mul_ne_zero ha hb)⟩
  refine ⟨hexp, hadd, ?_, normalized_eq_iff⟩
  intro u v hu hv
  obtain ⟨hu1, hu2, hu3, hu4⟩ := hu
  obtain ⟨hv1, hv2, hv3, hv4⟩ := hv
  exact ⟨⟨(hadd _ _ hu1 hv1).1, (hadd _ _ hu2 hv2).1, (hadd _ _ hu3 hv3).1, (hadd _ _ hu4 hv4).1⟩,
         ⟨(hadd _ _ hu1 hv1).2, (hadd _ _ hu2 hv2).2, (hadd _ _ hu3 hv3).2, (hadd _ _ hu4 hv4).2⟩⟩

/-- Witness for C4: the product and quotient of `Meter` and `Second` are in
canonical form. -/
theorem producible_vectors_canonical_witness :
    IsNormalizedUnit (unitMul Meter Second) ∧ IsNormalizedUnit (unitDiv Meter Second) :=
  producible_vectors_canonical.2.2.1 Meter Second (by decide) (by decide)

/-- C5 counterexample: the claim says comparison operators are provided on
quantities; the `Quantity` struct declares neither `operator==` nor
`operator<` (its only operators are `+`, `-`, `*`, `/`), so no comparison is
provided even for equal dimension vectors. -/
theorem comparison_ops_cex :
    ¬ (SurfaceOp.eqQuantity ∈ providedOps ∧ SurfaceOp.ltQuantity ∈ providedOps) := by
  decide

/-- C5 as amended: no comparison operator is declared for quantities, so every
comparison — including between two quantities with equal dimension vectors —
is rejected at compile time; the only operators provided are `+`, `-`, `*`,
`/` on quantity operands. -/
theorem no_comparison_operators :
    SurfaceOp.eqQuantity ∉ providedOps ∧ SurfaceOp.ltQuantity ∉ providedOps
    ∧ providedOps = [SurfaceOp.addQuantity, SurfaceOp.subQuantity,
                     SurfaceOp.mulQuantity, SurfaceOp.divQuantity] := by
  refine ⟨by decide, by decide, rfl⟩

/-- C6 counterexample: the claim says unary negation and scalar-mixing
operators are provided; the `Quantity` struct declares no unary `operator-`,
and no operator of it (nor any free operator) accepts a raw scalar operand. -/
theorem scalar_mixing_ops_cex :
    ¬ (SurfaceOp.negQuantity ∈ providedOps ∧ SurfaceOp.mulScalarLeft ∈ providedOps ∧
       SurfaceOp.mulScalarRight ∈ providedOps ∧ SurfaceOp.divScalarRight ∈ providedOps) := by
  decide

/-- C6 as amended: neither unary negation nor any scalar-mixing form is
provided — `-a`, `scalar * a`, `a * scalar` and `a / scalar` are all rejected
at compile time for every quantity `a`; mixing with a raw scalar is only
possible by first wrapping it as a `Dimensionless` quantity, and multiplying
by a `Dimensionless` quantity leaves every canonical dimension vector
unchanged. -/
theorem no_negation_or_scalar_mixing :
    (SurfaceOp.negQuantity ∉ providedOps ∧ SurfaceOp.mulScalarLeft ∉ providedOps ∧
     SurfaceOp.mulScalarRight ∉ providedOps ∧ SurfaceOp.divScalarRight ∉ providedOps)
    ∧ (∀ u : Unit, IsNormalizedUnit u → unitMul u Dimensionless = u) := by
  refine ⟨by decide, ?_⟩
  intro u hu
  obtain ⟨⟨h1d, h1g⟩, ⟨h2d, h2g⟩, ⟨h3d, h3g⟩, ⟨h4d, h4g⟩⟩ := hu
  have key : ∀ r : RatExp, IsNormalized r → ratio_add r (Exponent 0) = r := by
    intro r hr
    have hone : (Exponent 0).den ≠ 0 := by decide
    have hnorm : IsNormalized (ratio_add r (Exponent 0)) :=
      ratioNormalize_isNormalized _ _ (mul_ne_zero hr.1.ne' hone)
    rw [normalized_eq_iff (ratio_add r (Exponent 0)) r hnorm hr]
    rw [ratio_add_val r (Exponent 0) hr.1.ne' hone]
    show r.val + RatExp.val ⟨0, 1⟩ = r.val
    simp [RatExp.val]
  show unitMul u Dimensionless = u
  unfold unitMul Dimensionless
  cases u
  rw [Unit.mk.injEq]
  exact ⟨key _ ⟨h1d, h1g⟩, key _ ⟨h2d, h2g⟩, key _ ⟨h3d, h3g⟩, key _ ⟨h4d, h4g⟩⟩

/-- Witness for C6 as amended: multiplying the `Meter` unit by
`Dimensionless` leaves it unchanged. -/
theorem no_negation_or_scalar_mixing_witness :
    unitMul Meter Dimensionless = Meter :=
  no_negation_or_scalar_mixing.2 Meter (by decide)

/-- C7.  Commutativity of the product at the type level: for every pair of
units the result unit of `operator*` is the same in either order, hence for
every pair of quantities the dimension vector of `a * b` equals that of
`b * a`. -/
theorem product_type_commutative :
    (∀ u v : Unit, unitMul u v = unitMul v u)
    ∧ (∀ (S : Type) [Mul S] (a b : DynQuantity S),
        (DynQuantity.mul a b).unit = (DynQuantity.mul b a).unit) := by
  have h : ∀ u v : Unit, unitMul u v = unitMul v u := by
    intro u v
    unfold unitMul
    rw [ratio_add_comm u.LengthExp v.LengthExp, ratio_add_comm u.MassExp v.MassExp,
        ratio_add_comm u.TimeExp v.TimeExp, ratio_add_comm u.CurrentExp v.CurrentExp]
  exact ⟨h, fun S _ a b => h a.unit b.unit⟩

/-- C9.  Every arithmetic operator — `operator+`, `operator-`, `operator*`,
`operator/` — fixes the right operand's `ValueType` to the left operand's, so
mixed-precision operands are rejected at compile time, and the result carries
that same scalar type; in particular a single-precision times a
double-precision quantity is rejected. -/
theorem operators_require_same_scalar_type :
    (∀ a b : MixedQuantity, (MixedQuantity.mulM a b).isSome ↔ a.sty = b.sty)
    ∧ (∀ a b c : MixedQuantity, MixedQuantity.mulM a b = some c → c.sty = a.sty)
    ∧ (∀ a b : MixedQuantity, (MixedQuantity.divM a b).isSome ↔ a.sty = b.sty)
    ∧ (∀ a b c : MixedQuantity, MixedQuantity.divM a b = some c → c.sty = a.sty)
    ∧ (∀ a b : MixedQuantity,
        (MixedQuantity.addM a b).isSome ↔ (a.sty = b.sty ∧ a.unit = b.unit))
    ∧ (∀ a b c : MixedQuantity, MixedQuantity.addM a b = some c → c.sty = a.sty)
    ∧ (∀ a b : MixedQuantity,
        (MixedQuantity.subM a b).isSome ↔ (a.sty = b.sty ∧ a.unit = b.unit))
    ∧ (∀ a b c : MixedQuantity, MixedQuantity.subM a b = some c → c.sty = a.sty)
    ∧ MixedQuantity.mulM ⟨ScalarTy.float, Meter, 10⟩ ⟨ScalarTy.double, Meter, 5⟩ = none
    ∧ MixedQuantity.subM ⟨ScalarTy.float, Meter, 10⟩ ⟨ScalarTy.double, Meter, 5⟩ = none := by
  refine ⟨?_, ?_, ?_, ?_, ?_, ?_, ?_, ?_, rfl, rfl⟩
  · intro a b
    by_cases h : a.sty = b.sty
    · simp [MixedQuantity.mulM, h]
    · simp [MixedQuantity.mulM, h]
  · intro a b c h
    by_cases hs : a.sty = b.sty
    · simp only [MixedQuantity.mulM, if_pos hs, Option.some.injEq] at h
      rw [← h]
    · simp [MixedQuantity.mulM, hs] at h
  · intro a b
    by_cases h : a.sty = b.sty
    · simp [MixedQuantity.divM, h]
    · simp [MixedQuantity.divM, h]
  · intro a b c h
    by_cases hs : a.sty = b.sty
    · simp only [MixedQuantity.divM, if_pos hs, Option.some.injEq] at h
      rw [← h]
    · simp [MixedQuantity.divM, hs] at h
  · intro a b
    by_cases h : a.sty = b.sty ∧ a.unit = b.unit
    · simp [MixedQuantity.addM, h]
    · simp [MixedQuantity.addM, h]
  · intro a b c h
    by_cases hs : a.sty = b.sty ∧ a.unit = b.unit
    · simp only [MixedQuantity.addM, if_pos hs, Option.some.injEq] at h
      rw [← h]
    · simp [MixedQuantity.addM, hs] at h
  · intro a b
    by_cases h : a.sty = b.sty ∧ a.unit = b.unit
    · simp [MixedQuantity.subM, h]
    · simp [MixedQuantity.subM, h]
  · intro a b c h
    by_cases hs : a.sty = b.sty ∧ a.unit = b.unit
    · simp only [MixedQuantity.subM, if_pos hs, Option.some.injEq] at h
      rw [← h]
    · simp [MixedQuantity.subM, hs] at h

/-- Witness for C9: a double-precision times a double-precision quantity is
accepted and the result is double-precision, and likewise for the difference
of two double-precision lengths. -/
theorem operators_require_same_scalar_type_witness :
    (⟨ScalarTy.double, unitMul Meter Meter, (10 : ℚ) * 5⟩ : MixedQuantity).sty
      = ScalarTy.double
    ∧ (⟨ScalarTy.double, Meter, (10 : ℚ) - 5⟩ : MixedQuantity).sty = ScalarTy.double :=
  ⟨operators_require_same_scalar_type.2.1 ⟨ScalarTy.double, Meter, 10⟩
      ⟨ScalarTy.double, Meter, 5⟩ ⟨ScalarTy.double, unitMul Meter Meter, (10 : ℚ) * 5⟩ rfl,
   operators_require_same_scalar_type.2.2.2.2.2.2.2.1 ⟨ScalarTy.double, Meter, 10⟩
      ⟨ScalarTy.double, Meter, 5⟩ ⟨ScalarTy.double, Meter, (10 : ℚ) - 5⟩ rfl⟩

/-- C10.  Round trip at the public interface: constructing a quantity of any
dimension vector from any scalar and reading the scalar back yields exactly
that scalar; construction stores the scalar unchanged and the unit tag is
exactly the chosen one. -/
theorem construct_then_read_roundtrip :
    (∀ (S : Type) (U : Unit) (v : S), (Quantity.mk v : Quantity U S).value = v)
    ∧ (∀ (S : Type) (u : Unit) (v : S),
        (DynQuantity.mk u v).value = v ∧ (DynQuantity.mk u v).unit = u) :=
  ⟨fun _ _ _ => rfl, fun _ _ _ => ⟨rfl, rfl⟩⟩

end UnitSystem

namespace PluginLoader

/-- C8.  On every run in which the shared artifact is acquired — the run
where the first symbol is missing, the run where the second symbol is
missing, and the successful run — the trace of the loader ends with the
release of the artifact, which is acquired and released exactly once, before
`main` returns. -/
theorem loader_releases_on_every_exit :
    ∀ env : LoaderEnv, env.openOk = true →
      (LoaderEvent.acquire ∈ (loaderMain env).1 ∧
       (loaderMain env).1.getLast? = some LoaderEvent.release ∧
       (loaderMain env).1.count LoaderEvent.acquire = 1 ∧
       (loaderMain env).1.count LoaderEvent.release = 1) := by
  intro env h
  rcases env with ⟨o, g, p, c⟩
  cases o
  · exact Bool.noConfusion h
  · cases g <;> cases p <;> cases c <;> decide

/-- Witness for C8: the fully successful run. -/
theorem loader_releases_on_every_exit_witness :
    LoaderEvent.acquire ∈ (loaderMain ⟨true, true, true, true⟩).1 ∧
    (loaderMain ⟨true, true, true, true⟩).1.getLast? = some LoaderEvent.release ∧
    (loaderMain ⟨true, true, true, true⟩).1.count LoaderEvent.acquire = 1 ∧
    (loaderMain ⟨true, true, true, true⟩).1.count LoaderEvent.release = 1 :=
  loader_releases_on_every_exit ⟨true, true, true, true⟩ rfl

end PluginLoader
